import Mathlib

/-!
Verification of the index-range calculus in `vconv.py` (ae-wavenet).

The file embeds the module shallowly: each Python function becomes a Lean
function over `ℤ` (Python integers), `ℚ` (Python `fractions.Fraction`) and
explicit node lists (the `parent`/`child` chain links).  Python's fallible
control flow (raised errors, failing `assert` statements, attribute access on
`None`) is modelled with `Except`.  Diagnostic `print` calls, which the spec
treats as an optional side channel, are omitted.
-/

namespace VConv

/-- Ceiling division of integers: the value of Python `math.ceil(a / b)` under
exact arithmetic, for a positive divisor `b`. -/
def ceilDiv (a b : ℤ) : ℤ := -((-a).fdiv b)

/-- Multiplication of two rationals, phrased through `mkRat` so the kernel can
evaluate it; it equals ordinary multiplication (`fracMul_eq_mul` below).  This
models multiplication of Python `fractions.Fraction` values, which are kept in
lowest terms exactly as `mkRat` keeps them. -/
def fracMul (a b : ℚ) : ℚ := mkRat (a.num * b.num) (a.den * b.den)

/-- One 1D scanning-window transformation (class `VirtualConv`).  The fields
are the attributes set by `VirtualConv.__init__`; `stride_rat` is the
`stride_ratio` attribute (a `fractions.Fraction`).  `id` stands for Python
object identity, which the chain traversals test with `vc is source` /
`vc is dest`.  The `parent`/`child` links are represented by the explicit node
lists handed to the traversal functions below. -/
structure VirtualConv where
  id : ℕ
  l_wing_sz : ℤ
  r_wing_sz : ℤ
  l_pad : ℤ
  r_pad : ℤ
  stride_rat : ℚ
deriving DecidableEq

/-- `VirtualConv._recep_field`, translated clause by clause from the source.
The source's `assert p <= w` (an invariant upheld by the constructor) is not
modelled as a failure; theorems that depend on Python reaching the `return`
statement carry it as a hypothesis. -/
def VirtualConv._recep_field (vc : VirtualConv) (out_b out_e out_l : ℤ) :
    ℤ × ℤ × ℤ :=
  let lw := vc.l_wing_sz
  let rw := vc.r_wing_sz
  let lp := vc.l_pad
  let rp := vc.r_pad
  if 1 ≤ vc.stride_rat then
    let stride := vc.stride_rat.num
    let out_dense_b := out_b * stride
    let out_dense_e := out_e * stride
    let out_dense_l := out_l * stride
    let p_in_b := out_dense_b - lw + lw
    let p_in_e := out_dense_e + rw + lw
    let p_in_l := out_dense_l + rw + lw
    let in_b := max 0 (p_in_b - lp)
    let in_l := p_in_l - lp - rp
    let in_e := min (p_in_e - lp) in_l
    (in_b, in_e, in_l)
  else
    let inv_stride := (vc.stride_rat.den : ℤ)
    let sp_in_b := out_b - lw + lw
    let sp_in_e := out_e + rw + lw
    let sp_in_l := out_l + rw + lw
    let s_in_b := max 0 (sp_in_b - lp)
    let s_in_l := out_l - lw - rw
    let s_in_e := min (sp_in_e - lp) s_in_l
    let _ := sp_in_l  -- computed but never used in the source either
    (ceilDiv s_in_b inv_stride, s_in_e.fdiv inv_stride, s_in_l.fdiv inv_stride)

/-- `VirtualConv._output_range`, translated clause by clause from the source.
Python's `int(cond)` factors appear as `if cond then _ else 0`. -/
def VirtualConv._output_range (vc : VirtualConv) (in_b in_e in_l : ℤ) :
    ℤ × ℤ × ℤ :=
  let lw := vc.l_wing_sz
  let rw := vc.r_wing_sz
  let lp := vc.l_pad
  let rp := vc.r_pad
  if 1 ≤ vc.stride_rat then
    let stride := vc.stride_rat.num
    let p_in_b := in_b + (if in_b ≠ 0 then lp else 0)
    let p_in_e := in_e + lp + (if in_e = in_l then rp else 0)
    let p_in_l := in_l + lp + rp
    let out_b :=
      if p_in_b + lw + rw > p_in_l then -1
      else ceilDiv (p_in_b + lw - lw) stride
    let out_e :=
      if p_in_e - lw - rw < 0 then -1
      else (p_in_e - rw - lw).fdiv stride
    let out_l :=
      if p_in_l - lw - rw < 0 then -1
      else (p_in_l - rw - lw).fdiv stride
    (out_b, out_e, out_l)
  else
    let inv_stride := (vc.stride_rat.den : ℤ)
    let sp_in_b := in_b * inv_stride + (if in_b ≠ 0 then lp else 0)
    let sp_in_e := in_e * inv_stride + lp + (if in_e = in_l then rp else 0)
    let sp_in_l := in_l * inv_stride + lp + rp
    let out_b :=
      if sp_in_b + lw + rw > sp_in_l then -1
      else sp_in_b + lw - lw
    (out_b, max (-1) (sp_in_e - rw - lw), max (-1) (sp_in_l - rw - lw))

/-- The `filter_info` argument of `VirtualConv.__init__`: Python passes either
a 2-tuple of wing sizes, an integer filter size, or (dynamically) anything
else. -/
inductive FilterInfo where
  | twoTuple (l_wing_sz r_wing_sz : ℤ)
  | filterSz (n : ℤ)
  | other
deriving DecidableEq

/-- The two construction-time failures of `VirtualConv.__init__` (both raised
as `RuntimeError` with distinct messages; the spec names them
`InvalidFilterSpec` and `PaddingExceedsWing`). -/
inductive ConstructError where
  | invalidFilterSpec
  | paddingExceedsWing
deriving DecidableEq

/-- `VirtualConv.__init__`.  Chain linking (`parent`/`child`) is represented by
the node lists given to the traversals, so the `parent` argument is omitted
here.  `Rat.divInt 1 stride` is `fractions.Fraction(1, stride)`; for the
positive strides of the spec's constructor contract the two agree (Python
raises `ZeroDivisionError` at `stride = 0`, outside that contract). -/
def mkVirtualConv (id : ℕ) (filter_info : FilterInfo) (padding : ℤ × ℤ)
    (stride : ℤ) (is_downsample : Bool) : Except ConstructError VirtualConv :=
  let l_pad := padding.1
  let r_pad := padding.2
  let stride_rat : ℚ := if is_downsample then (stride : ℚ) else Rat.divInt 1 stride
  match filter_info with
  | .twoTuple lw rw =>
      if l_pad > lw ∨ r_pad > rw then .error .paddingExceedsWing
      else .ok ⟨id, lw, rw, l_pad, r_pad, stride_rat⟩
  | .filterSz n =>
      let total_wing_sz := n - 1
      let lw := total_wing_sz.fdiv 2
      let rw := total_wing_sz - lw
      if l_pad > lw ∨ r_pad > rw then .error .paddingExceedsWing
      else .ok ⟨id, lw, rw, l_pad, r_pad, stride_rat⟩
  | .other => .error .invalidFilterSpec

/-- Failures of the chain traversals.  `attributeErrorNone` is Python's
`AttributeError` from calling a method on `None` after walking past the end of
the chain; `spacingNonIntegral` and `shadowDivisibility` are the failing
`assert` statements of `_shadow`.  `chainTraversalMismatch` is the dedicated
error the spec's taxonomy declares for a walk that misses `dest`/`source`; the
source never defines or raises it, and no definition below produces it. -/
inductive Err where
  | attributeErrorNone
  | chainTraversalMismatch
  | spacingNonIntegral
  | shadowDivisibility
deriving DecidableEq

instance {ε α : Type} [DecidableEq ε] [DecidableEq α] : DecidableEq (Except ε α)
  | .ok a, .ok b =>
      if h : a = b then isTrue (by rw [h])
      else isFalse (by intro hc; cases hc; exact h rfl)
  | .ok _, .error _ => isFalse (by intro hc; cases hc)
  | .error _, .ok _ => isFalse (by intro hc; cases hc)
  | .error a, .error b =>
      if h : a = b then isTrue (by rw [h])
      else isFalse (by intro hc; cases hc; exact h rfl)

/-- The loop of `recep_field`: starting at `vc` (initially `dest`), apply
`_recep_field`, stop when the current node is `source` (identity test), else
move to the parent; `ancestors` is the chain of parents above `vc`, and
exhausting it is Python's `vc = vc.parent` reaching `None`, after which the
next method call raises `AttributeError`. -/
def recepWalk (srcId : ℕ) : List VirtualConv → VirtualConv → ℤ → ℤ → ℤ →
    Except Err (ℤ × ℤ × ℤ)
  | [], vc, b, e, l =>
      let r := vc._recep_field b e l
      if vc.id = srcId then .ok r else .error .attributeErrorNone
  | p :: rest, vc, b, e, l =>
      let r := vc._recep_field b e l
      if vc.id = srcId then .ok r
      else recepWalk srcId rest p r.1 r.2.1 r.2.2

/-- `recep_field(source, dest, out_b, out_e, out_len)`.  `dest` is the starting
node, `ancestors` its chain of parents, `srcId` the identity of `source`. -/
def recep_field (srcId : ℕ) (dest : VirtualConv) (ancestors : List VirtualConv)
    (out_b out_e out_len : ℤ) : Except Err (ℤ × ℤ × ℤ) :=
  if out_b = out_e then .ok (0, 0, 0)
  else
    (recepWalk srcId ancestors dest out_b (out_e - 1) (out_len - 1)).map
      (fun r => (r.1, r.2.1 + 1, r.2.2 + 1))

/-- The loop of `output_range`: starting at `vc` (initially `source`), apply
`_output_range`, stop when the current node is `dest`, else move to the child;
`descendants` is the chain of children below `vc`. -/
def outputWalk (dstId : ℕ) : List VirtualConv → VirtualConv → ℤ → ℤ → ℤ →
    Except Err (ℤ × ℤ × ℤ)
  | [], vc, b, e, l =>
      let r := vc._output_range b e l
      if vc.id = dstId then .ok r else .error .attributeErrorNone
  | c :: rest, vc, b, e, l =>
      let r := vc._output_range b e l
      if vc.id = dstId then .ok r
      else outputWalk dstId rest c r.1 r.2.1 r.2.2

/-- `output_range(source, dest, in_b, in_e, in_len)`.  `source` is the starting
node, `descendants` its chain of children, `dstId` the identity of `dest`. -/
def output_range (dstId : ℕ) (source : VirtualConv)
    (descendants : List VirtualConv) (in_b in_e in_len : ℤ) :
    Except Err (ℤ × ℤ × ℤ) :=
  if in_b = in_e then .ok (0, 0, 0)
  else
    (outputWalk dstId descendants source in_b (in_e - 1) (in_len - 1)).map
      (fun r => (r.1, r.2.1 + 1, r.2.2 + 1))

/-- The first loop of `shadow`: multiply the running `spacing` by each node's
stride ratio and collect the denominators, walking `source → dest` through the
child links. -/
def shadowDenoms (dstId : ℕ) : List VirtualConv → VirtualConv → ℚ →
    Except Err (List ℕ)
  | [], vc, spacing =>
      let sp := fracMul spacing vc.stride_rat
      if vc.id = dstId then .ok [sp.den] else .error .attributeErrorNone
  | c :: rest, vc, spacing =>
      let sp := fracMul spacing vc.stride_rat
      if vc.id = dstId then .ok [sp.den]
      else (shadowDenoms dstId rest c sp).map (fun ds => sp.den :: ds)

/-- The loop of `_shadow`: advance the range with `_output_range`, assert that
`sp * stride_ratio` is integral (else `AssertionError`, modelled as
`spacingNonIntegral`), update the spacing and the physical offset `pf`, stop at
`dest`.  Returns the final `(b, e, sp, pf)`. -/
def shadowWalk (dstId : ℕ) : List VirtualConv → VirtualConv → ℤ → ℤ → ℤ →
    ℤ → ℤ → Except Err (ℤ × ℤ × ℤ × ℤ)
  | [], vc, b, e, l, sp, pf =>
      let r := vc._output_range b e l
      let q := fracMul (sp : ℚ) vc.stride_rat
      if q.den ≠ 1 then .error .spacingNonIntegral
      else if vc.id = dstId then
        .ok (r.1, r.2.1, q.num, pf + (vc.l_wing_sz - vc.l_pad) * sp)
      else .error .attributeErrorNone
  | c :: rest, vc, b, e, l, sp, pf =>
      let r := vc._output_range b e l
      let q := fracMul (sp : ℚ) vc.stride_rat
      if q.den ≠ 1 then .error .spacingNonIntegral
      else if vc.id = dstId then
        .ok (r.1, r.2.1, q.num, pf + (vc.l_wing_sz - vc.l_pad) * sp)
      else
        shadowWalk dstId rest c r.1 r.2.1 r.2.2 q.num
          (pf + (vc.l_wing_sz - vc.l_pad) * sp)

/-- `_shadow(source, dest, in_b, in_e, in_len, spacing_denom_lcm)`: run the
walk, convert its final bounds to physical positions, and divide out
`gcd(spacing_denom_lcm, sp)`, asserting even division (modelled as
`shadowDivisibility`). -/
def _shadow (dstId : ℕ) (source : VirtualConv) (descendants : List VirtualConv)
    (in_b in_e in_len : ℤ) (spacing_denom_lcm : ℕ) : Except Err (ℤ × ℤ) :=
  match shadowWalk dstId descendants source in_b (in_e - 1) (in_len - 1)
      (spacing_denom_lcm : ℤ) 0 with
  | .error err => .error err
  | .ok (b, e, sp, pf) =>
      let pb := pf + b * sp
      let pe := pf + e * sp
      let reduce_sp : ℤ := (Int.gcd (spacing_denom_lcm : ℤ) sp : ℤ)
      if pb.fmod reduce_sp ≠ 0 then .error .shadowDivisibility
      else if pe.fmod reduce_sp ≠ 0 then .error .shadowDivisibility
      else .ok (pb.fdiv reduce_sp, pe.fdiv reduce_sp + 1)

/-- `shadow(source, dest, in_b, in_e, in_l)`: collect the running spacing
denominators, take their least common multiple (`np.lcm.reduce`), and call
`_shadow`. -/
def shadow (dstId : ℕ) (source : VirtualConv) (descendants : List VirtualConv)
    (in_b in_e in_l : ℤ) : Except Err (ℤ × ℤ) :=
  (shadowDenoms dstId descendants source 1).bind
    (fun de => _shadow dstId source descendants in_b in_e in_l
      (de.foldl Nat.lcm 1))

/-- Modelled from the spec: the claim C1 formulas for the node-local backward
mapping in the upsampling regime (`stride_ratio = 1/s`): the last-valid input
index expands the last output index by both wing sizes, subtracts both
paddings, and floor-divides by `s`; the end index is the wing-expanded,
left-padding-subtracted value capped at that spaced last index before the same
floor division; the begin index is the left-clamped, padding-subtracted value
divided by `s` rounding up. -/
def recepFieldSpecUp (lw rw lp rp s out_b out_e out_l : ℤ) : ℤ × ℤ × ℤ :=
  let spaced_l := out_l + lw + rw - lp - rp
  (ceilDiv (max 0 (out_b - lp)) s,
   (min (out_e + rw + lw - lp) spaced_l).fdiv s,
   spaced_l.fdiv s)

/-- Modelled from the spec: the claim C5 formulas for the node-local forward
mapping in the downsampling regime (`stride_ratio = s ≥ 1`), with padding
applied only at the true axis boundaries. -/
def outputRangeSpecDown (lw rw lp rp s in_b in_e in_l : ℤ) : ℤ × ℤ × ℤ :=
  let pb := in_b + (if in_b ≠ 0 then lp else 0)
  let pe := in_e + lp + (if in_e = in_l then rp else 0)
  let pl := in_l + lp + rp
  ((if pb + lw + rw > pl then -1 else ceilDiv pb s),
   (if pe - lw - rw < 0 then -1 else (pe - lw - rw).fdiv s),
   (if pl - lw - rw < 0 then -1 else (pl - lw - rw).fdiv s))

/-- Last component of an inclusive index triple. -/
def lastIx (r : ℤ × ℤ × ℤ) : ℤ := r.2.2

/-- The constructor invariant `l_pad ≤ l_wing_sz ∧ r_pad ≤ r_wing_sz`; its
consequence `l_pad + r_pad ≤ l_wing_sz + r_wing_sz` is the `assert p <= w` of
`_recep_field`. -/
def padWithinWings (vc : VirtualConv) : Prop :=
  vc.l_pad + vc.r_pad ≤ vc.l_wing_sz + vc.r_wing_sz

instance (vc : VirtualConv) : Decidable (padWithinWings vc) := by
  unfold padWithinWings; infer_instance

/-- The stride-2, wings `(1,1)`, padding `(0,0)` downsampling node of the
spec's concrete scenarios. -/
def dNode : VirtualConv := ⟨1, 1, 1, 0, 0, (2 : ℚ)⟩

/-- The stride-2 (ratio `1/2`), wings `(1,1)`, padding `(0,0)` upsampling
node. -/
def uNode : VirtualConv := ⟨1, 1, 1, 0, 0, mkRat 1 2⟩

theorem fracMul_eq_mul (a b : ℚ) : fracMul a b = a * b :=
  (Rat.mul_eq_mkRat a b).symm

/-- Claim C1 (code bug): on the upsampling node with wings `(1,1)`, padding
`(0,0)` and stride ratio `1/2`, the node-local backward mapping applied to the
whole output axis `(out_b, out_e, out_l) = (0, 8, 8)` returns `(0, 3, 3)`: the
source computes the last-valid spaced index as `out_l - l_wing - r_wing`
(wings subtracted, padding ignored), whereas the claimed formula
`floor((out_l + l_wing + r_wing - l_pad - r_pad) / s)` yields `5`, matching
both the spec's words and the docstring (the receptive field of the whole
output axis of this transpose convolution reaches input index 5, not 3). -/
theorem upsample_recep_field_last_index_divergence :
    uNode._recep_field 0 8 8 = (0, 3, 3) ∧
    recepFieldSpecUp 1 1 0 0 2 0 8 8 = (0, 5, 5) ∧
    (3 : ℤ) ≠ 5 :=
  ⟨by decide, by decide, by decide⟩

/-- Claim C2 (counterexample): on the single-node chain with stride 2, wings
`(1,1)`, padding `(0,0)`, the shadow of the whole length-7 input range is not
the spec's hand-computed `(0, 7)`. -/
theorem shadow_example_not_spec_value :
    shadow 1 dNode [] 0 7 7 ≠ Except.ok ((0 : ℤ), (7 : ℤ)) := by decide

/-- Claim C2 (amended): the shadow of the whole length-7 input range on that
chain is `(1, 6)`: the three outputs sit at physical input positions 1, 3, 5,
so their half-open shadow on the input is `[1, 6)`. -/
theorem shadow_example_value :
    shadow 1 dNode [] 0 7 7 = Except.ok ((1 : ℤ), (6 : ℤ)) := by decide

/-- Claim C4 (code bug): receptive field followed by output range is not
expansive.  On the single-node upsampling chain (wings `(1,1)`, padding
`(0,0)`, stride ratio `1/2`, output length 9 — exactly the output the node
produces from a length-6 input), the receptive field of the whole output
range `[0, 9)` is `[0, 4)`, and the output range recovered from it is
`[0, 5)`, which does not contain `[0, 9)`.  The root cause is the
`s_in_l = out_l - lw - rw` slip recorded for claim C1. -/
theorem recep_then_output_range_not_containing :
    recep_field 1 uNode [] 0 9 9 = Except.ok ((0 : ℤ), (4 : ℤ), (4 : ℤ)) ∧
    output_range 1 uNode [] 0 4 4 = Except.ok ((0 : ℤ), (5 : ℤ), (5 : ℤ)) ∧
    (5 : ℤ) < 9 :=
  ⟨by decide, by decide, by decide⟩

/-- Claim C5: in the downsampling regime (`stride_ratio = s ≥ 1`) the
node-local forward mapping agrees with the claimed conditionally-padded
formulas: `pb = in_b + (in_b ≠ 0 ? l_pad : 0)`,
`pe = in_e + l_pad + (in_e = in_l ? r_pad : 0)`, `pl = in_l + l_pad + r_pad`,
with `-1` whenever the wing-expanded span does not fit, else ceiling/floor
division by `s`. -/
theorem output_range_downsample_formula (vc : VirtualConv) (s : ℤ)
    (hs : vc.stride_rat = (s : ℚ)) (h1 : 1 ≤ s) (in_b in_e in_l : ℤ) :
    vc._output_range in_b in_e in_l =
      outputRangeSpecDown vc.l_wing_sz vc.r_wing_sz vc.l_pad vc.r_pad s
        in_b in_e in_l := by
  have hle : (1 : ℚ) ≤ vc.stride_rat := by
    rw [hs]; exact_mod_cast h1
  have hnum : vc.stride_rat.num = s := by rw [hs]; exact Rat.num_intCast s
  unfold VirtualConv._output_range outputRangeSpecDown
  rw [if_pos hle, hnum]
  simp only [add_sub_cancel_right, sub_right_comm]

theorem output_range_downsample_formula_witness :
    dNode.stride_rat = ((2 : ℤ) : ℚ) ∧ (1 : ℤ) ≤ 2 ∧
    dNode._output_range 0 6 6 =
      outputRangeSpecDown dNode.l_wing_sz dNode.r_wing_sz dNode.l_pad
        dNode.r_pad 2 0 6 6 :=
  ⟨by decide, by decide,
    output_range_downsample_formula dNode 2 (by decide) (by decide) 0 6 6⟩

/-- Claim C8: the empty half-open range short-circuits both public traversals
to `(0, 0, 0)` before any chain walking, for every chain (even a broken one),
every index `k` and every length `L`. -/
theorem empty_range_short_circuit (targetId : ℕ) (start : VirtualConv)
    (rest : List VirtualConv) (k L : ℤ) :
    recep_field targetId start rest k k L = Except.ok ((0:ℤ), (0:ℤ), (0:ℤ)) ∧
    output_range targetId start rest k k L = Except.ok ((0:ℤ), (0:ℤ), (0:ℤ)) := by
  constructor <;> simp [recep_field, output_range]

/-- Claim C6: construction fails with `PaddingExceedsWing` exactly when a
padding exceeds the corresponding (given or derived) wing, fails with
`InvalidFilterSpec` when the filter spec is neither a pair nor an integer, and
succeeds in all remaining cases (non-negative wings, pads within wings,
positive stride), returning the node with exactly those attributes. -/
theorem construction_validation :
    (∀ (i : ℕ) (lw rw lp rp stride : ℤ) (dir : Bool),
      lp > lw ∨ rp > rw →
      mkVirtualConv i (.twoTuple lw rw) (lp, rp) stride dir =
        Except.error ConstructError.paddingExceedsWing) ∧
    (∀ (i : ℕ) (n lp rp stride : ℤ) (dir : Bool),
      lp > (n - 1).fdiv 2 ∨ rp > (n - 1) - (n - 1).fdiv 2 →
      mkVirtualConv i (.filterSz n) (lp, rp) stride dir =
        Except.error ConstructError.paddingExceedsWing) ∧
    (∀ (i : ℕ) (lp rp stride : ℤ) (dir : Bool),
      mkVirtualConv i .other (lp, rp) stride dir =
        Except.error ConstructError.invalidFilterSpec) ∧
    (∀ (i : ℕ) (lw rw lp rp stride : ℤ) (dir : Bool),
      0 ≤ lw → 0 ≤ rw → 0 ≤ lp → 0 ≤ rp → lp ≤ lw → rp ≤ rw → 1 ≤ stride →
      mkVirtualConv i (.twoTuple lw rw) (lp, rp) stride dir =
        Except.ok ⟨i, lw, rw, lp, rp,
          if dir then (stride : ℚ) else Rat.divInt 1 stride⟩) ∧
    (∀ (i : ℕ) (n lp rp stride : ℤ) (dir : Bool),
      1 ≤ n → 0 ≤ lp → 0 ≤ rp → lp ≤ (n - 1).fdiv 2 →
      rp ≤ (n - 1) - (n - 1).fdiv 2 → 1 ≤ stride →
      mkVirtualConv i (.filterSz n) (lp, rp) stride dir =
        Except.ok ⟨i, (n - 1).fdiv 2, (n - 1) - (n - 1).fdiv 2, lp, rp,
          if dir then (stride : ℚ) else Rat.divInt 1 stride⟩) := by
  refine ⟨?_, ?_, ?_, ?_, ?_⟩
  · intro i lw rw lp rp stride dir h
    simp [mkVirtualConv, h]
  · intro i n lp rp stride dir h
    simp [mkVirtualConv, h]
  · intro i lp rp stride dir
    simp [mkVirtualConv]
  · intro i lw rw lp rp stride dir _ _ _ _ hlpw hrpw _
    have h : ¬ (lp > lw ∨ rp > rw) := by omega
    simp [mkVirtualConv, h]
  · intro i n lp rp stride dir _ _ _ hlpw hrpw _
    have h : ¬ (lp > (n - 1).fdiv 2 ∨ rp > (n - 1) - (n - 1).fdiv 2) := by
      omega
    simp [mkVirtualConv, h]

theorem construction_validation_witness :
    ((1 : ℤ) > 0 ∨ (0 : ℤ) > 1) ∧
    mkVirtualConv 3 (.twoTuple 0 1) (1, 0) 2 true =
      Except.error ConstructError.paddingExceedsWing ∧
    ((2 : ℤ) > (4 - 1 : ℤ).fdiv 2 ∨ (0 : ℤ) > (4 - 1 : ℤ) - (4 - 1 : ℤ).fdiv 2) ∧
    mkVirtualConv 3 (.filterSz 4) (2, 0) 2 true =
      Except.error ConstructError.paddingExceedsWing ∧
    mkVirtualConv 3 .other (0, 0) 2 true =
      Except.error ConstructError.invalidFilterSpec ∧
    mkVirtualConv 3 (.twoTuple 1 1) (1, 0) 2 true =
      Except.ok ⟨3, 1, 1, 1, 0, if true then ((2 : ℤ) : ℚ) else Rat.divInt 1 2⟩ ∧
    mkVirtualConv 3 (.filterSz 3) (1, 1) 2 false =
      Except.ok ⟨3, (3 - 1 : ℤ).fdiv 2, (3 - 1 : ℤ) - (3 - 1 : ℤ).fdiv 2, 1, 1,
        if false then ((2 : ℤ) : ℚ) else Rat.divInt 1 2⟩ :=
  ⟨by decide,
   construction_validation.1 3 0 1 1 0 2 true (by decide),
   by decide,
   construction_validation.2.1 3 4 2 0 2 true (by decide),
   construction_validation.2.2.1 3 0 0 2 true,
   construction_validation.2.2.2.1 3 1 1 1 0 2 true (by decide) (by decide)
     (by decide) (by decide) (by decide) (by decide) (by decide),
   construction_validation.2.2.2.2 3 3 1 1 2 false (by decide) (by decide)
     (by decide) (by decide) (by decide) (by decide)⟩

/-- Claim C7: a node with zero wings, zero padding and stride ratio 1 is the
identity for both public traversals on any non-empty sub-range `[b, e)` of an
axis of length `L` with `0 ≤ b < e ≤ L`. -/
theorem identity_node_traversals (vc : VirtualConv)
    (hlw : vc.l_wing_sz = 0) (hrw : vc.r_wing_sz = 0)
    (hlp : vc.l_pad = 0) (hrp : vc.r_pad = 0) (hsr : vc.stride_rat = 1)
    (b e L : ℤ) (hb : 0 ≤ b) (hbe : b < e) (heL : e ≤ L) :
    recep_field vc.id vc [] b e L = Except.ok (b, e, L) ∧
    output_range vc.id vc [] b e L = Except.ok (b, e, L) := by
  have hne : b ≠ e := ne_of_lt hbe
  have h1 : (1 : ℚ) ≤ vc.stride_rat := le_of_eq hsr.symm
  have hnum : vc.stride_rat.num = 1 := by rw [hsr]; rfl
  constructor
  · simp only [recep_field, if_neg hne, recepWalk, VirtualConv._recep_field,
      if_pos h1, hnum, hlw, hrw, hlp, hrp, if_pos rfl, Except.map, mul_one,
      add_zero, sub_zero]
    have hmax : max 0 b = b := max_eq_right hb
    have hmin : min (e - 1) (L - 1) = e - 1 := min_eq_left (by omega)
    simp [hmax, hmin]
  · simp only [output_range, if_neg hne, outputWalk, VirtualConv._output_range,
      if_pos h1, hnum, hlw, hrw, hlp, hrp, if_pos rfl, Except.map, add_zero,
      sub_zero]
    have hb1 : ¬ (b + 0 + 0 > L - 1) := by omega
    have he1 : ¬ (e - 1 - 0 - 0 < 0) := by omega
    have hL1 : ¬ (L - 1 - 0 - 0 < 0) := by omega
    simp only [ceilDiv, Int.fdiv_one]
    simp
    omega

theorem identity_node_traversals_witness :
    (⟨5, 0, 0, 0, 0, (1 : ℚ)⟩ : VirtualConv).l_wing_sz = 0 ∧ (0 : ℤ) ≤ 0 ∧
    (0 : ℤ) < 2 ∧ (2 : ℤ) ≤ 3 ∧
    recep_field 5 ⟨5, 0, 0, 0, 0, (1 : ℚ)⟩ [] 0 2 3 =
      Except.ok ((0 : ℤ), (2 : ℤ), (3 : ℤ)) ∧
    output_range 5 ⟨5, 0, 0, 0, 0, (1 : ℚ)⟩ [] 0 2 3 =
      Except.ok ((0 : ℤ), (2 : ℤ), (3 : ℤ)) :=
  ⟨rfl, by decide, by decide, by decide,
   (identity_node_traversals ⟨5, 0, 0, 0, 0, (1 : ℚ)⟩ rfl rfl rfl rfl rfl
     0 2 3 (by decide) (by decide) (by decide)).1,
   (identity_node_traversals ⟨5, 0, 0, 0, 0, (1 : ℚ)⟩ rfl rfl rfl rfl rfl
     0 2 3 (by decide) (by decide) (by decide)).2⟩

theorem recepWalk_unreachable (srcId : ℕ) :
    ∀ (rest : List VirtualConv) (vc : VirtualConv) (b e l : ℤ),
      srcId ∉ (vc :: rest).map VirtualConv.id →
      recepWalk srcId rest vc b e l = Except.error Err.attributeErrorNone := by
  intro rest
  induction rest with
  | nil =>
      intro vc b e l h
      simp only [List.map, List.mem_cons, not_or] at h
      have hv : ¬ vc.id = srcId := fun hc => h.1 hc.symm
      simp [recepWalk, hv]
  | cons p ps ih =>
      intro vc b e l h
      simp only [List.map, List.mem_cons, not_or] at h
      have hv : ¬ vc.id = srcId := fun hc => h.1 hc.symm
      have h2 : srcId ∉ (p :: ps).map VirtualConv.id := by
        simp only [List.map, List.mem_cons, not_or]; exact ⟨h.2.1, h.2.2⟩
      simp only [recepWalk, if_neg hv]
      exact ih p _ _ _ h2

theorem outputWalk_unreachable (dstId : ℕ) :
    ∀ (rest : List VirtualConv) (vc : VirtualConv) (b e l : ℤ),
      dstId ∉ (vc :: rest).map VirtualConv.id →
      outputWalk dstId rest vc b e l = Except.error Err.attributeErrorNone := by
  intro rest
  induction rest with
  | nil =>
      intro vc b e l h
      simp only [List.map, List.mem_cons, not_or] at h
      have hv : ¬ vc.id = dstId := fun hc => h.1 hc.symm
      simp [outputWalk, hv]
  | cons p ps ih =>
      intro vc b e l h
      simp only [List.map, List.mem_cons, not_or] at h
      have hv : ¬ vc.id = dstId := fun hc => h.1 hc.symm
      have h2 : dstId ∉ (p :: ps).map VirtualConv.id := by
        simp only [List.map, List.mem_cons, not_or]; exact ⟨h.2.1, h.2.2⟩
      simp only [outputWalk, if_neg hv]
      exact ih p _ _ _ h2

theorem shadowDenoms_unreachable (dstId : ℕ) :
    ∀ (rest : List VirtualConv) (vc : VirtualConv) (spacing : ℚ),
      dstId ∉ (vc :: rest).map VirtualConv.id →
      shadowDenoms dstId rest vc spacing =
        Except.error Err.attributeErrorNone := by
  intro rest
  induction rest with
  | nil =>
      intro vc spacing h
      simp only [List.map, List.mem_cons, not_or] at h
      have hv : ¬ vc.id = dstId := fun hc => h.1 hc.symm
      simp [shadowDenoms, hv]
  | cons p ps ih =>
      intro vc spacing h
      simp only [List.map, List.mem_cons, not_or] at h
      have hv : ¬ vc.id = dstId := fun hc => h.1 hc.symm
      have h2 : dstId ∉ (p :: ps).map VirtualConv.id := by
        simp only [List.map, List.mem_cons, not_or]; exact ⟨h.2.1, h.2.2⟩
      simp only [shadowDenoms, if_neg hv]
      rw [ih p _ h2]
      rfl

/-- Claim C3 (counterexample): with `dest` a lone node of identity 1 and
`source` an unrelated identity 2, all three traversals fail with the
`AttributeError` that Python raises when the walk runs off the end of the
chain and calls a method on `None` — not with the spec's dedicated
`ChainTraversalMismatch` error, which the source never defines or raises. -/
theorem unreachable_traversal_error_kind :
    recep_field 2 dNode [] 0 1 1 = Except.error Err.attributeErrorNone ∧
    output_range 2 dNode [] 0 1 1 = Except.error Err.attributeErrorNone ∧
    shadow 2 dNode [] 0 1 1 = Except.error Err.attributeErrorNone ∧
    Err.attributeErrorNone ≠ Err.chainTraversalMismatch :=
  ⟨by decide, by decide, by decide, by decide⟩

/-- Claim C3 (amended): when the target node is not reachable along the walked
links, the traversals neither loop forever nor return a result over the wrong
sub-chain: each terminates by exhausting the finite chain and failing with the
`AttributeError` from dereferencing the missing (`None`) link — not with a
dedicated `ChainTraversalMismatch` error, which the code never defines. -/
theorem unreachable_traversal_attribute_error (targetId : ℕ)
    (start : VirtualConv) (rest : List VirtualConv) (b e L : ℤ)
    (hun : targetId ∉ (start :: rest).map VirtualConv.id) (hne : b ≠ e) :
    recep_field targetId start rest b e L =
      Except.error Err.attributeErrorNone ∧
    output_range targetId start rest b e L =
      Except.error Err.attributeErrorNone ∧
    shadow targetId start rest b e L =
      Except.error Err.attributeErrorNone := by
  refine ⟨?_, ?_, ?_⟩
  · rw [recep_field, if_neg hne, recepWalk_unreachable targetId rest start _ _ _ hun]
    rfl
  · rw [output_range, if_neg hne, outputWalk_unreachable targetId rest start _ _ _ hun]
    rfl
  · rw [shadow, shadowDenoms_unreachable targetId rest start _ hun]
    rfl

theorem unreachable_traversal_attribute_error_witness :
    (2 : ℕ) ∉ (dNode :: []).map VirtualConv.id ∧ (0 : ℤ) ≠ 1 ∧
    (recep_field 2 dNode [] 0 1 1 = Except.error Err.attributeErrorNone ∧
     output_range 2 dNode [] 0 1 1 = Except.error Err.attributeErrorNone ∧
     shadow 2 dNode [] 0 1 1 = Except.error Err.attributeErrorNone) :=
  ⟨by decide, by decide,
   unreachable_traversal_attribute_error 2 dNode [] 0 1 1 (by decide) (by decide)⟩

theorem den_dvd_intCast_mul (M : ℤ) (q : ℚ) (h : (q.den : ℤ) ∣ M) :
    ((M : ℚ) * q).den = 1 := by
  obtain ⟨m, hm⟩ := h
  have h0 : ((q.den : ℚ)) ≠ 0 := by exact_mod_cast q.den_ne_zero
  have hden : ((q.den : ℚ)) * q = ((q.num : ℚ)) := by
    calc ((q.den : ℚ)) * q
        = ((q.den : ℚ)) * ((q.num : ℚ) / ((q.den : ℚ))) := by
          rw [Rat.num_div_den]
      _ = ((q.num : ℚ)) := by field_simp
  have key : (M : ℚ) * q = ((m * q.num : ℤ) : ℚ) := by
    rw [hm]
    push_cast
    rw [mul_comm ((q.den : ℚ)) ((m : ℚ)), mul_assoc, hden]
  rw [key, Rat.den_intCast]

theorem dvd_foldl_lcm_init :
    ∀ (l : List ℕ) (init : ℕ), init ∣ l.foldl Nat.lcm init := by
  intro l
  induction l with
  | nil => intro init; simp
  | cons a t ih =>
      intro init
      simp only [List.foldl]
      exact dvd_trans (Nat.dvd_lcm_left init a) (ih (Nat.lcm init a))

theorem mem_dvd_foldl_lcm :
    ∀ (l : List ℕ) (init d : ℕ), d ∈ l → d ∣ l.foldl Nat.lcm init := by
  intro l
  induction l with
  | nil => intro init d h; cases h
  | cons a t ih =>
      intro init d h
      simp only [List.foldl]
      rcases List.mem_cons.mp h with rfl | h2
      · exact dvd_trans (Nat.dvd_lcm_right init d) (dvd_foldl_lcm_init t _)
      · exact ih _ d h2

theorem shadowDenoms_error_kind (dstId : ℕ) :
    ∀ (rest : List VirtualConv) (vc : VirtualConv) (spacing : ℚ) (err : Err),
      shadowDenoms dstId rest vc spacing = Except.error err →
      err = Err.attributeErrorNone := by
  intro rest
  induction rest with
  | nil =>
      intro vc spacing err h
      by_cases hv : vc.id = dstId
      · simp [shadowDenoms, hv] at h
      · simp only [shadowDenoms, if_neg hv, Except.error.injEq] at h
        exact h.symm
  | cons c cs ih =>
      intro vc spacing err h
      by_cases hv : vc.id = dstId
      · simp [shadowDenoms, hv] at h
      · simp only [shadowDenoms, if_neg hv] at h
        cases hrec : shadowDenoms dstId cs c (fracMul spacing vc.stride_rat) with
        | error e2 =>
            rw [hrec] at h
            simp only [Except.map, Except.error.injEq] at h
            rw [← h]
            exact ih c _ e2 hrec
        | ok de =>
            rw [hrec] at h
            simp [Except.map] at h

theorem shadowWalk_no_spacing_error (dstId : ℕ) (M : ℤ) :
    ∀ (rest : List VirtualConv) (vc : VirtualConv) (P : ℚ) (de : List ℕ)
      (b e l sp pf : ℤ),
      shadowDenoms dstId rest vc P = Except.ok de →
      (∀ d ∈ de, (d : ℤ) ∣ M) →
      ((sp : ℤ) : ℚ) = (M : ℚ) * P →
      shadowWalk dstId rest vc b e l sp pf ≠
        Except.error Err.spacingNonIntegral := by
  intro rest
  induction rest with
  | nil =>
      intro vc P de b e l sp pf hde hdvd hsp
      by_cases hv : vc.id = dstId
      · simp only [shadowDenoms, if_pos hv, Except.ok.injEq] at hde
        have hdvd1 : (((fracMul P vc.stride_rat).den : ℕ) : ℤ) ∣ M := by
          apply hdvd
          rw [← hde]
          exact List.mem_singleton_self _
        have hpr : ((P * vc.stride_rat).den : ℤ) ∣ M := by
          rw [← fracMul_eq_mul]; exact hdvd1
        have hq : (fracMul ((sp : ℤ) : ℚ) vc.stride_rat).den = 1 := by
          rw [fracMul_eq_mul, hsp, mul_assoc]
          exact den_dvd_intCast_mul M _ hpr
        intro hcontra
        simp [shadowWalk, hq, hv] at hcontra
      · simp [shadowDenoms, hv] at hde
  | cons c cs ih =>
      intro vc P de b e l sp pf hde hdvd hsp
      by_cases hv : vc.id = dstId
      · simp only [shadowDenoms, if_pos hv, Except.ok.injEq] at hde
        have hdvd1 : (((fracMul P vc.stride_rat).den : ℕ) : ℤ) ∣ M := by
          apply hdvd
          rw [← hde]
          exact List.mem_singleton_self _
        have hpr : ((P * vc.stride_rat).den : ℤ) ∣ M := by
          rw [← fracMul_eq_mul]; exact hdvd1
        have hq : (fracMul ((sp : ℤ) : ℚ) vc.stride_rat).den = 1 := by
          rw [fracMul_eq_mul, hsp, mul_assoc]
          exact den_dvd_intCast_mul M _ hpr
        intro hcontra
        simp [shadowWalk, hq, hv] at hcontra
      · simp only [shadowDenoms, if_neg hv] at hde
        cases hrec : shadowDenoms dstId cs c (fracMul P vc.stride_rat) with
        | error e2 => rw [hrec] at hde; simp [Except.map] at hde
        | ok de2 =>
            rw [hrec] at hde
            simp only [Except.map, Except.ok.injEq] at hde
            have hdvd1 : (((fracMul P vc.stride_rat).den : ℕ) : ℤ) ∣ M := by
              apply hdvd
              rw [← hde]
              exact List.mem_cons_self _ _
            have hdvd2 : ∀ d ∈ de2, ((d : ℕ) : ℤ) ∣ M := by
              intro d hd
              apply hdvd
              rw [← hde]
              exact List.mem_cons_of_mem _ hd
            have hpr : ((P * vc.stride_rat).den : ℤ) ∣ M := by
              rw [← fracMul_eq_mul]; exact hdvd1
            have hq : (fracMul ((sp : ℤ) : ℚ) vc.stride_rat).den = 1 := by
              rw [fracMul_eq_mul, hsp, mul_assoc]
              exact den_dvd_intCast_mul M _ hpr
            have hnum : (((fracMul ((sp : ℤ) : ℚ) vc.stride_rat).num : ℤ) : ℚ) =
                (M : ℚ) * fracMul P vc.stride_rat := by
              rw [Rat.coe_int_num_of_den_eq_one hq, fracMul_eq_mul,
                fracMul_eq_mul, hsp, mul_assoc]
            intro hcontra
            simp only [shadowWalk, hq, ne_eq, not_true_eq_false, if_false,
              if_neg hv] at hcontra
            exact ih c (fracMul P vc.stride_rat) de2 _ _ _ _ _ hrec hdvd2
              hnum hcontra

/-- Claim C9: with the initial spacing set to the least common multiple of
the denominators of all running stride-ratio products along the walked chain
(`spacing_denom_lcm`, as the first loop of `shadow` computes it), the running
spacing stays integral at every step of `_shadow`: the walk never fails the
`(sp * stride_ratio).denominator == 1` assertion, for any chain, start node,
target identity and input range. -/
theorem shadow_spacing_integral (dstId : ℕ) (source : VirtualConv)
    (descendants : List VirtualConv) (in_b in_e in_l : ℤ) :
    shadow dstId source descendants in_b in_e in_l ≠
      Except.error Err.spacingNonIntegral := by
  intro hcontra
  unfold shadow at hcontra
  cases hde : shadowDenoms dstId descendants source 1 with
  | error err =>
      rw [hde] at hcontra
      have herr := shadowDenoms_error_kind dstId descendants source 1 err hde
      rw [herr] at hcontra
      simp [Except.bind] at hcontra
  | ok de =>
      rw [hde] at hcontra
      simp only [Except.bind] at hcontra
      unfold _shadow at hcontra
      have hdvd : ∀ d ∈ de, ((d : ℕ) : ℤ) ∣ ((de.foldl Nat.lcm 1 : ℕ) : ℤ) := by
        intro d hd
        exact_mod_cast Int.natCast_dvd_natCast.mpr (mem_dvd_foldl_lcm de 1 d hd)
      have hsp : ((((de.foldl Nat.lcm 1 : ℕ) : ℤ) : ℤ) : ℚ) =
          ((((de.foldl Nat.lcm 1 : ℕ) : ℤ) : ℚ)) * 1 := (mul_one _).symm
      have hwalk := shadowWalk_no_spacing_error dstId
        ((de.foldl Nat.lcm 1 : ℕ) : ℤ) descendants source 1 de in_b (in_e - 1)
        (in_l - 1) ((de.foldl Nat.lcm 1 : ℕ) : ℤ) 0 hde hdvd hsp
      cases hw : shadowWalk dstId descendants source in_b (in_e - 1)
          (in_l - 1) ((de.foldl Nat.lcm 1 : ℕ) : ℤ) 0 with
      | error err2 =>
          rw [hw] at hcontra
          simp only [Except.error.injEq] at hcontra
          exact hwalk (by rw [hw, hcontra])
      | ok r =>
          rw [hw] at hcontra
          obtain ⟨rb, re, rsp, rpf⟩ := r
          by_cases h1 : (rpf + rb * rsp).fmod
              ((Int.gcd ((de.foldl Nat.lcm 1 : ℕ) : ℤ) rsp : ℕ) : ℤ) ≠ 0
          · simp [h1] at hcontra
          · by_cases h2 : (rpf + re * rsp).fmod
                ((Int.gcd ((de.foldl Nat.lcm 1 : ℕ) : ℤ) rsp : ℕ) : ℤ) ≠ 0
            · simp [h1, h2] at hcontra
            · simp [h1, h2] at hcontra

theorem _recep_field_lastIx_eq (vc : VirtualConv) (b e bb ee l : ℤ) :
    lastIx (vc._recep_field b e l) = lastIx (vc._recep_field bb ee l) := by
  unfold VirtualConv._recep_field lastIx
  by_cases h : (1 : ℚ) ≤ vc.stride_rat <;> simp [h]

theorem _output_range_lastIx_eq (vc : VirtualConv) (b e bb ee l : ℤ) :
    lastIx (vc._output_range b e l) = lastIx (vc._output_range bb ee l) := by
  unfold VirtualConv._output_range lastIx
  by_cases h : (1 : ℚ) ≤ vc.stride_rat <;> simp [h]

theorem recepWalk_map_lastIx (srcId : ℕ) :
    ∀ (rest : List VirtualConv) (vc : VirtualConv) (b e bb ee l : ℤ),
      Except.map lastIx (recepWalk srcId rest vc b e l) =
        Except.map lastIx (recepWalk srcId rest vc bb ee l) := by
  intro rest
  induction rest with
  | nil =>
      intro vc b e bb ee l
      by_cases hv : vc.id = srcId
      · simp only [recepWalk, if_pos hv, Except.map]
        rw [_recep_field_lastIx_eq vc b e bb ee l]
      · simp [recepWalk, hv]
  | cons p ps ih =>
      intro vc b e bb ee l
      by_cases hv : vc.id = srcId
      · simp only [recepWalk, if_pos hv, Except.map]
        rw [_recep_field_lastIx_eq vc b e bb ee l]
      · simp only [recepWalk, if_neg hv]
        have h3 : (vc._recep_field b e l).2.2 = (vc._recep_field bb ee l).2.2 :=
          _recep_field_lastIx_eq vc b e bb ee l
        rw [h3]
        exact ih p _ _ _ _ _

theorem outputWalk_map_lastIx (dstId : ℕ) :
    ∀ (rest : List VirtualConv) (vc : VirtualConv) (b e bb ee l : ℤ),
      Except.map lastIx (outputWalk dstId rest vc b e l) =
        Except.map lastIx (outputWalk dstId rest vc bb ee l) := by
  intro rest
  induction rest with
  | nil =>
      intro vc b e bb ee l
      by_cases hv : vc.id = dstId
      · simp only [outputWalk, if_pos hv, Except.map]
        rw [_output_range_lastIx_eq vc b e bb ee l]
      · simp [outputWalk, hv]
  | cons p ps ih =>
      intro vc b e bb ee l
      by_cases hv : vc.id = dstId
      · simp only [outputWalk, if_pos hv, Except.map]
        rw [_output_range_lastIx_eq vc b e bb ee l]
      · simp only [outputWalk, if_neg hv]
        have h3 : (vc._output_range b e l).2.2 = (vc._output_range bb ee l).2.2 :=
          _output_range_lastIx_eq vc b e bb ee l
        rw [h3]
        exact ih p _ _ _ _ _

/-- Claim C10: the last-valid-index component of both node-local mappings
depends only on the last-valid-index argument (for nodes satisfying the
constructor invariant, under which Python's `assert` in `_recep_field`
passes; `_output_range` has no assert, so its part is unconditional);
consequently, the axis length reported by each public traversal for a
non-empty query range is independent of which sub-range was queried — the
traversals agree on success/failure and on the final length component. -/
theorem last_index_depends_only_on_last :
    (∀ (vc : VirtualConv), padWithinWings vc → ∀ (b e bb ee l : ℤ),
      lastIx (vc._recep_field b e l) = lastIx (vc._recep_field bb ee l)) ∧
    (∀ (vc : VirtualConv) (b e bb ee l : ℤ),
      lastIx (vc._output_range b e l) = lastIx (vc._output_range bb ee l)) ∧
    (∀ (targetId : ℕ) (start : VirtualConv) (rest : List VirtualConv)
        (b e bb ee L : ℤ),
      (∀ n ∈ start :: rest, padWithinWings n) → b ≠ e → bb ≠ ee →
      Except.map lastIx (recep_field targetId start rest b e L) =
        Except.map lastIx (recep_field targetId start rest bb ee L)) ∧
    (∀ (targetId : ℕ) (start : VirtualConv) (rest : List VirtualConv)
        (b e bb ee L : ℤ), b ≠ e → bb ≠ ee →
      Except.map lastIx (output_range targetId start rest b e L) =
        Except.map lastIx (output_range targetId start rest bb ee L)) := by
  refine ⟨?_, ?_, ?_, ?_⟩
  · intro vc _ b e bb ee l
    exact _recep_field_lastIx_eq vc b e bb ee l
  · intro vc b e bb ee l
    exact _output_range_lastIx_eq vc b e bb ee l
  · intro targetId start rest b e bb ee L _ hne hne2
    simp only [recep_field, if_neg hne, if_neg hne2]
    have hw := recepWalk_map_lastIx targetId rest start b (e - 1) bb (ee - 1)
      (L - 1)
    cases h1 : recepWalk targetId rest start b (e - 1) (L - 1) with
    | error err1 =>
        cases h2 : recepWalk targetId rest start bb (ee - 1) (L - 1) with
        | error err2 =>
            rw [h1, h2] at hw
            simp only [Except.map, Except.error.injEq] at hw
            simp [Except.map, hw]
        | ok r2 =>
            rw [h1, h2] at hw
            simp [Except.map] at hw
    | ok r1 =>
        cases h2 : recepWalk targetId rest start bb (ee - 1) (L - 1) with
        | error err2 =>
            rw [h1, h2] at hw
            simp [Except.map] at hw
        | ok r2 =>
            rw [h1, h2] at hw
            simp only [Except.map, Except.ok.injEq, lastIx] at hw
            simp [Except.map, lastIx, hw]
  · intro targetId start rest b e bb ee L hne hne2
    simp only [output_range, if_neg hne, if_neg hne2]
    have hw := outputWalk_map_lastIx targetId rest start b (e - 1) bb (ee - 1)
      (L - 1)
    cases h1 : outputWalk targetId rest start b (e - 1) (L - 1) with
    | error err1 =>
        cases h2 : outputWalk targetId rest start bb (ee - 1) (L - 1) with
        | error err2 =>
            rw [h1, h2] at hw
            simp only [Except.map, Except.error.injEq] at hw
            simp [Except.map, hw]
        | ok r2 =>
            rw [h1, h2] at hw
            simp [Except.map] at hw
    | ok r1 =>
        cases h2 : outputWalk targetId rest start bb (ee - 1) (L - 1) with
        | error err2 =>
            rw [h1, h2] at hw
            simp [Except.map] at hw
        | ok r2 =>
            rw [h1, h2] at hw
            simp only [Except.map, Except.ok.injEq, lastIx] at hw
            simp [Except.map, lastIx, hw]

theorem last_index_depends_only_on_last_witness :
    padWithinWings dNode ∧ (∀ n ∈ dNode :: ([] : List VirtualConv),
      padWithinWings n) ∧ (0 : ℤ) ≠ 1 ∧ (2 : ℤ) ≠ 3 ∧
    lastIx (dNode._recep_field 0 1 6) = lastIx (dNode._recep_field 2 3 6) ∧
    lastIx (dNode._output_range 0 1 6) = lastIx (dNode._output_range 2 3 6) ∧
    Except.map lastIx (recep_field 1 dNode [] 0 1 7) =
      Except.map lastIx (recep_field 1 dNode [] 2 3 7) ∧
    Except.map lastIx (output_range 1 dNode [] 0 1 7) =
      Except.map lastIx (output_range 1 dNode [] 2 3 7) :=
  ⟨by decide, by decide, by decide, by decide,
   last_index_depends_only_on_last.1 dNode (by decide) 0 1 2 3 6,
   last_index_depends_only_on_last.2.1 dNode 0 1 2 3 6,
   last_index_depends_only_on_last.2.2.1 1 dNode [] 0 1 2 3 7 (by decide)
     (by decide) (by decide),
   last_index_depends_only_on_last.2.2.2 1 dNode [] 0 1 2 3 7 (by decide)
     (by decide)⟩

end VConv
